import Mathlib

/-!
# WebDAV server wrapper (main.go)

A shallow embedding of the first-party logic of `main.go`: the root HTTP handler
registered in `main` (Basic Auth check, directory listing for GET, read-only
switch, delegation to `webdav.Handler.ServeHTTP`) and `handleDirList`.

Library code the program calls is represented as follows.

* `http.ResponseWriter`: a record of the header map, the status code once
  `WriteHeader` has run, the headers as they stood at that moment, and the body
  written so far.
* `http.Request`: the method, the URL path and the result of `req.BasicAuth()`.
* `webdav.FileSystem` / `webdav.File` / `os.FileInfo`: the observations the program
  makes of them (`OpenFile`, `Stat`, `Readdir`, `Name`, `IsDir`).
* `webdav.Handler.ServeHTTP`: a parameter of the root handler.
-/

namespace WebdavServer

/-! ## HTTP headers and the response writer -/

/-- The header map of a response, as an association list from header name to value.
Names are kept as the program writes them; the names the program uses stay distinct under
the case folding that `net/http` applies to header names. -/
abbrev Header := List (String × String)

/-- Value stored under `key`, if any (`Header.Get`). -/
def Header.Get (h : Header) (key : String) : Option String :=
  match h with
  | [] => none
  | (k, v) :: rest => if k = key then some v else Header.Get rest key

/-- Remove every value stored under `key` (`Header.Del`). -/
def Header.Del (h : Header) (key : String) : Header :=
  match h with
  | [] => []
  | (k, v) :: rest => if k = key then Header.Del rest key else (k, v) :: Header.Del rest key

/-- Replace the values stored under `key` by the single value `value` (`Header.Set`). -/
def Header.Set (h : Header) (key value : String) : Header :=
  (key, value) :: Header.Del h key

/-- An `http.ResponseWriter`.
`header` is the map returned by `w.Header()`; `status` is the code given to the first
`WriteHeader` (none while no header has been written); `sentHeader` is the header map
as it stood when the status line was written; `body` is everything written so far. -/
structure ResponseWriter where
  header : Header
  status : Option Nat
  sentHeader : Header
  body : String
deriving DecidableEq

/-- The writer the HTTP server hands to a handler: nothing set, nothing written. -/
def ResponseWriter.fresh : ResponseWriter := ⟨[], none, [], ""⟩

/-- The call `w.Header().Set(key, value)`. -/
def ResponseWriter.HeaderSet (w : ResponseWriter) (key value : String) : ResponseWriter :=
  ⟨Header.Set w.header key value, w.status, w.sentHeader, w.body⟩

/-- The call `w.WriteHeader(code)`: the first call fixes the status code and the headers that
are sent; later calls change nothing. -/
def ResponseWriter.WriteHeader (w : ResponseWriter) (code : Nat) : ResponseWriter :=
  match w.status with
  | none => ⟨w.header, some code, w.header, w.body⟩
  | some _ => w

/-- The call `w.Write(data)`: writes the header with status 200 when none was written yet,
then appends the data to the body. -/
def ResponseWriter.Write (w : ResponseWriter) (data : String) : ResponseWriter :=
  let w1 := match w.status with
    | none => w.WriteHeader 200
    | some _ => w
  ⟨w1.header, w1.status, w1.sentHeader, w1.body ++ data⟩

/-- Expansion of a format string restricted to the verb `%s`, on character lists: each `%s`
takes the next argument, and prints `%!s(MISSING)` when the arguments are used up. -/
def sprintfAux : List Char → List String → List Char
  | '%' :: 's' :: rest, a :: args => a.data ++ sprintfAux rest args
  | '%' :: 's' :: rest, [] => "%!s(MISSING)".data ++ sprintfAux rest []
  | c :: rest, args => c :: sprintfAux rest args
  | [], _ => []

/-- The function `fmt.Sprintf` for formats whose only verb is `%s`. -/
def Sprintf (format : String) (args : List String) : String :=
  ⟨sprintfAux format.data args⟩

/-- The call `fmt.Fprintf(w, format, args...)`. -/
def Fprintf (w : ResponseWriter) (format : String) (args : List String) : ResponseWriter :=
  w.Write (Sprintf format args)

/-- The library function `http.Error(w, error, code)`: sets the two content headers, writes
the status code, then writes the message followed by a newline. -/
def Error (w : ResponseWriter) (error : String) (code : Nat) : ResponseWriter :=
  let w1 := w.HeaderSet "Content-Type" "text/plain; charset=utf-8"
  let w2 := w1.HeaderSet "X-Content-Type-Options" "nosniff"
  let w3 := w2.WriteHeader code
  w3.Write (error ++ "\n")

def StatusUnauthorized : Nat := 401

def StatusForbidden : Nat := 403

/-! ## Requests -/

/-- The part of `url.URL` the program reads. -/
structure URL where
  Path : String
deriving DecidableEq

/-- An `http.Request`: the method, the URL, and the result of `req.BasicAuth()`
(`none` when it reports `ok = false`, otherwise the user name and password it parsed). -/
structure Request where
  Method : String
  URL : URL
  BasicAuth : Option (String × String)
deriving DecidableEq

/-! ## The wrapped file system -/

/-- An `os.FileInfo`, as far as the program looks at it. -/
structure FileInfo where
  Name : String
  IsDir : Bool
deriving DecidableEq

/-- An open `webdav.File` as the program observes it: `Stat` is the `FileInfo` returned by
`f.Stat()` (`none` when it is nil), `Readdir` is the result of `f.Readdir(-1)` (`none` when the
error is not nil). -/
structure File where
  Stat : Option FileInfo
  Readdir : Option (List FileInfo)
deriving DecidableEq

/-- A `webdav.FileSystem` as the program observes it: `OpenFile name` is the result of
`fs.OpenFile(ctx, name, os.O_RDONLY, 0)` (`none` when the error is not nil). -/
structure FileSystem where
  OpenFile : String → Option File

/-- Calls made on the file system and on files opened from it. -/
inductive FsCall where
  | OpenFile (name : String)
  | Stat
  | Readdir
  | Close
deriving DecidableEq

/-- The `webdav.Handler` built in `main`, together with the state it wraps: the file system
and the lock system. -/
structure Handler (L : Type) where
  FileSystem : FileSystem
  LockSystem : L

/-- The type of `webdav.Handler.ServeHTTP`: it may change the wrapped state and writes to the
response. -/
abbrev ServeHTTP (L : Type) := Handler L → ResponseWriter → Request → Handler L × ResponseWriter

/-! ## Configuration -/

/-- The command-line flags the root handler reads. -/
structure Flags where
  flagUserName : String
  flagPassword : String
  flagReadonly : Bool
deriving DecidableEq

/-! ## handleDirList -/

/-- What a run of `handleDirList` leaves behind: the returned boolean, the response writer,
and the calls it made on the file system. -/
structure DirListResult where
  ok : Bool
  w : ResponseWriter
  calls : List FsCall
deriving DecidableEq

/-- The loop body of `handleDirList`: one `Fprintf` per directory entry. -/
def writeEntry (w : ResponseWriter) (d : FileInfo) : ResponseWriter :=
  let name := d.Name
  let name := if d.IsDir then name ++ "/" else name
  Fprintf w "<a href=\"%s\">%s</a>\n" [name, name]

/-- The function `handleDirList` of `main.go`. -/
def handleDirList (fs : FileSystem) (w : ResponseWriter) (req : Request) : DirListResult :=
  match fs.OpenFile req.URL.Path with
  | none => ⟨false, w, [FsCall.OpenFile req.URL.Path]⟩
  | some f =>
    match f.Stat with
    | some ⟨_, false⟩ => ⟨false, w, [FsCall.OpenFile req.URL.Path, FsCall.Stat, FsCall.Close]⟩
    | _ =>
      match f.Readdir with
      | none =>
        ⟨false, w, [FsCall.OpenFile req.URL.Path, FsCall.Stat, FsCall.Readdir, FsCall.Close]⟩
      | some dirs =>
        let w1 := w.HeaderSet "Content-Type" "text/html; charset=utf-8"
        let w2 := Fprintf w1 "<pre>\n" []
        let w3 := dirs.foldl writeEntry w2
        let w4 := Fprintf w3 "</pre>\n" []
        ⟨true, w4, [FsCall.OpenFile req.URL.Path, FsCall.Stat, FsCall.Readdir, FsCall.Close]⟩

/-! ## The root handler -/

/-- What one run of the root handler leaves behind: the wrapped state, the response, the
calls it made itself on the file system, and the arguments of each call of `ServeHTTP`. -/
structure Result (L : Type) where
  fs : Handler L
  w : ResponseWriter
  fsCalls : List FsCall
  served : List (ResponseWriter × Request)

/-- The Basic Auth block at the head of the root handler: `some w1` when the block answers the
request itself and returns, leaving the response `w1`; `none` when control passes on. -/
def basicAuthCheck (cfg : Flags) (w : ResponseWriter) (req : Request) : Option ResponseWriter :=
  if cfg.flagUserName ≠ "" ∧ cfg.flagPassword ≠ "" then
    match req.BasicAuth with
    | none =>
      let w1 := w.HeaderSet "WWW-Authenticate" "Basic realm=\"Restricted\""
      some (w1.WriteHeader StatusUnauthorized)
    | some (username, password) =>
      if username ≠ cfg.flagUserName ∨ password ≠ cfg.flagPassword then
        some (Error w "WebDAV: need authorized!" StatusUnauthorized)
      else
        none
  else
    none

/-- The read-only switch and the final delegation of the root handler. -/
def readonlyThenServe {L : Type} (serve : ServeHTTP L) (cfg : Flags) (fs : Handler L)
    (w : ResponseWriter) (req : Request) (calls : List FsCall) : Result L :=
  if cfg.flagReadonly = true ∧
      (req.Method = "PUT" ∨ req.Method = "DELETE" ∨ req.Method = "PROPPATCH" ∨
        req.Method = "MKCOL" ∨ req.Method = "COPY" ∨ req.Method = "MOVE") then
    ⟨fs, Error w "WebDAV: Read Only!!!" StatusForbidden, calls, []⟩
  else
    let r := serve fs w req
    ⟨r.1, r.2, calls, [(w, req)]⟩

/-- The handler registered for `/` in `main`. -/
def rootHandler {L : Type} (serve : ServeHTTP L) (cfg : Flags) (fs : Handler L)
    (w : ResponseWriter) (req : Request) : Result L :=
  match basicAuthCheck cfg w req with
  | some w1 => ⟨fs, w1, [], []⟩
  | none =>
    if req.Method = "GET" then
      let r := handleDirList fs.FileSystem w req
      if r.ok = true then
        ⟨fs, r.w, r.calls, []⟩
      else
        readonlyThenServe serve cfg fs r.w req r.calls
    else
      readonlyThenServe serve cfg fs w req []

/-! ## The listing page, as the specification words it -/

/-- The name shown for a directory entry: its name, with a slash appended exactly when the
entry is a directory. -/
def listingName (d : FileInfo) : String :=
  if d.IsDir = true then d.Name ++ "/" else d.Name

/-- The line of the page for one entry: one anchor whose target and text are both the shown
name, then a newline. -/
def listingLine (d : FileInfo) : String :=
  "<a href=\"" ++ listingName d ++ "\">" ++ listingName d ++ "</a>\n"

/-- The whole page: the opening tag line, one line per entry in order, the closing tag line. -/
def listingBody (dirs : List FileInfo) : String :=
  "<pre>\n" ++ String.join (dirs.map listingLine) ++ "</pre>\n"

/-- The condition under which the specification says a listing is produced: the path opens,
`Stat` does not report a non-directory, and `Readdir` succeeds. -/
def listable (fs : FileSystem) (path : String) : Prop :=
  ∃ f, fs.OpenFile path = some f ∧
    (∀ fi, f.Stat = some fi → fi.IsDir = true) ∧
    ∃ dirs, f.Readdir = some dirs

/-- The six methods the read-only switch names. -/
def blockedMethods : List String := ["PUT", "DELETE", "PROPPATCH", "MKCOL", "COPY", "MOVE"]


/-- The request reached the WebDAV handler untouched: `ServeHTTP` ran exactly once, on the
writer and request the root handler received, and the state and response after the root
handler are the ones `ServeHTTP` left. -/
def Forwarded {L : Type} (serve : ServeHTTP L) (fs : Handler L) (w : ResponseWriter)
    (req : Request) (r : Result L) : Prop :=
  r.served = [(w, req)] ∧ r.fs = (serve fs w req).1 ∧ r.w = (serve fs w req).2

/-! ## Sample data for concrete runs -/

/-- A small file tree: the root directory holds a directory `docs` and a file whose name
contains markup characters; `/notes.txt` is a regular file; `/locked` opens but cannot be
listed; nothing else exists. -/
def sampleFs : FileSystem :=
  ⟨fun name =>
    if name = "/" then
      some ⟨some ⟨"/", true⟩, some [⟨"docs", true⟩, ⟨"a<b>&\"c.txt", false⟩]⟩
    else if name = "/notes.txt" then
      some ⟨some ⟨"notes.txt", false⟩, none⟩
    else if name = "/locked" then
      some ⟨some ⟨"locked", true⟩, none⟩
    else
      none⟩

/-- A stand-in for `ServeHTTP` with a list of locked paths as lock system: LOCK records the
path and answers 200, UNLOCK forgets it and answers 204, every other method answers 405. -/
def sampleServe : ServeHTTP (List String) := fun h w req =>
  if req.Method = "LOCK" then
    (⟨h.FileSystem, req.URL.Path :: h.LockSystem⟩, w.WriteHeader 200)
  else if req.Method = "UNLOCK" then
    (⟨h.FileSystem, h.LockSystem.filter (fun q => q ≠ req.URL.Path)⟩, w.WriteHeader 204)
  else
    (h, w.WriteHeader 405)

/-- The sample handler state: the sample file tree and no locks. -/
def sampleHandler : Handler (List String) := ⟨sampleFs, []⟩

/-- Sample flags: no credentials, read-only mode off. -/
def flagsOpen : Flags := ⟨"", "", false⟩

/-- Sample flags: no credentials, read-only mode on. -/
def flagsReadonly : Flags := ⟨"", "", true⟩

/-- Sample flags: both credentials configured, read-only mode on. -/
def flagsAuth : Flags := ⟨"admin", "secret", true⟩

/-- Sample flags: a user name but an empty password. -/
def flagsUserOnly : Flags := ⟨"admin", "", false⟩

/-! ## Lemmas on the response writer -/

theorem Header.Get_Set_self (h : Header) (key value : String) :
    Header.Get (Header.Set h key value) key = some value := by
  simp [Header.Set, Header.Get]

theorem Write_body (w : ResponseWriter) (s : String) : (w.Write s).body = w.body ++ s := by
  cases hs : w.status <;> simp [ResponseWriter.Write, ResponseWriter.WriteHeader, hs]

theorem Write_header (w : ResponseWriter) (s : String) : (w.Write s).header = w.header := by
  cases hs : w.status <;> simp [ResponseWriter.Write, ResponseWriter.WriteHeader, hs]

theorem Write_status (w : ResponseWriter) (s : String) :
    (w.Write s).status = some (w.status.getD 200) := by
  cases hs : w.status <;> simp [ResponseWriter.Write, ResponseWriter.WriteHeader, hs]

theorem Write_sentHeader_none (w : ResponseWriter) (s : String) (h : w.status = none) :
    (w.Write s).sentHeader = w.header := by
  simp [ResponseWriter.Write, ResponseWriter.WriteHeader, h]

theorem Write_sentHeader_some (w : ResponseWriter) (s : String) (c : Nat) (h : w.status = some c) :
    (w.Write s).sentHeader = w.sentHeader := by
  simp [ResponseWriter.Write, h]

/-! ## Lemmas on the format strings -/

theorem Sprintf_anchor (n : String) :
    Sprintf "<a href=\"%s\">%s</a>\n" [n, n] = "<a href=\"" ++ n ++ "\">" ++ n ++ "</a>\n" := by
  apply String.ext
  have h : "<a href=\"%s\">%s</a>\n".data
      = "<a href=\"".data ++ ('%' :: 's' :: ("\">".data ++ ('%' :: 's' :: "</a>\n".data))) := by
    decide
  simp only [Sprintf, h, String.data_append]
  simp [sprintfAux]

theorem Sprintf_open : Sprintf "<pre>\n" [] = "<pre>\n" := by decide

theorem Sprintf_close : Sprintf "</pre>\n" [] = "</pre>\n" := by decide

theorem join_cons (s : String) (ss : List String) :
    String.join (s :: ss) = s ++ String.join ss := by
  apply String.ext
  simp [String.data_join, String.data_append]

/-! ## Lemmas on the listing loop -/

theorem writeEntry_eq (w : ResponseWriter) (d : FileInfo) :
    writeEntry w d = w.Write (listingLine d) := by
  unfold writeEntry listingLine listingName Fprintf
  by_cases hd : d.IsDir = true <;> simp [hd, Sprintf_anchor]

theorem foldl_writeEntry_body (dirs : List FileInfo) (w : ResponseWriter) :
    (dirs.foldl writeEntry w).body = w.body ++ String.join (dirs.map listingLine) := by
  induction dirs generalizing w with
  | nil => simp [String.join]
  | cons d ds ih =>
    simp only [List.foldl_cons, List.map_cons, join_cons, ih, writeEntry_eq, Write_body]
    exact String.append_assoc _ _ _

theorem foldl_writeEntry_header (dirs : List FileInfo) (w : ResponseWriter) :
    (dirs.foldl writeEntry w).header = w.header := by
  induction dirs generalizing w with
  | nil => rfl
  | cons d ds ih => simp only [List.foldl_cons, ih, writeEntry_eq, Write_header]

theorem foldl_writeEntry_status (dirs : List FileInfo) (w : ResponseWriter) (c : Nat)
    (h : w.status = some c) :
    (dirs.foldl writeEntry w).status = some c ∧
      (dirs.foldl writeEntry w).sentHeader = w.sentHeader := by
  induction dirs generalizing w with
  | nil => exact ⟨h, rfl⟩
  | cons d ds ih =>
    have h1 : (writeEntry w d).status = some c := by
      rw [writeEntry_eq, Write_status, h]; rfl
    have h2 : (writeEntry w d).sentHeader = w.sentHeader := by
      rw [writeEntry_eq, Write_sentHeader_some w _ c h]
    simp only [List.foldl_cons]
    exact ⟨(ih _ h1).1, (ih _ h1).2.trans h2⟩

/-! ## Lemmas on handleDirList -/

theorem handleDirList_ok_iff (fs : FileSystem) (w : ResponseWriter) (req : Request) :
    (handleDirList fs w req).ok = true ↔ listable fs req.URL.Path := by
  unfold handleDirList listable
  cases ho : fs.OpenFile req.URL.Path with
  | none => simp
  | some f =>
    cases hs : f.Stat with
    | none =>
      cases hr : f.Readdir <;> simp [hs, hr]
    | some fi =>
      obtain ⟨n, b⟩ := fi
      cases b
      · simp [hs]
      · cases hr : f.Readdir <;> simp [hs, hr]

theorem handleDirList_false_w (fs : FileSystem) (w : ResponseWriter) (req : Request)
    (h : (handleDirList fs w req).ok = false) : (handleDirList fs w req).w = w := by
  unfold handleDirList at h ⊢
  cases ho : fs.OpenFile req.URL.Path with
  | none => simp
  | some f =>
    cases hs : f.Stat with
    | none =>
      cases hr : f.Readdir <;> simp [ho, hs, hr] at h ⊢
    | some fi =>
      obtain ⟨n, b⟩ := fi
      cases b
      · simp [hs]
      · cases hr : f.Readdir <;> simp [ho, hs, hr] at h ⊢

theorem handleDirList_true_w (fs : FileSystem) (w : ResponseWriter) (req : Request)
    (f : File) (dirs : List FileInfo) (ho : fs.OpenFile req.URL.Path = some f)
    (hr : f.Readdir = some dirs) (h : (handleDirList fs w req).ok = true) :
    (handleDirList fs w req).w =
      Fprintf (dirs.foldl writeEntry
        (Fprintf (w.HeaderSet "Content-Type" "text/html; charset=utf-8") "<pre>\n" []))
        "</pre>\n" [] := by
  unfold handleDirList at h ⊢
  cases hs : f.Stat with
  | none => simp [ho, hs, hr]
  | some fi =>
    obtain ⟨n, b⟩ := fi
    cases b
    · simp [ho, hs] at h
    · simp [ho, hs, hr]

theorem handleDirList_status (fs : FileSystem) (w : ResponseWriter) (req : Request)
    (h : (handleDirList fs w req).ok = true) :
    (handleDirList fs w req).w.status = some (w.status.getD 200) := by
  obtain ⟨f, ho, _, dirs, hr⟩ := (handleDirList_ok_iff fs w req).1 h
  rw [handleDirList_true_w fs w req f dirs ho hr h]
  have h1 : (Fprintf (w.HeaderSet "Content-Type" "text/html; charset=utf-8") "<pre>\n" []).status
      = some (w.status.getD 200) := by
    simp [Fprintf, Write_status, ResponseWriter.HeaderSet]
  rw [Fprintf, Write_status, (foldl_writeEntry_status dirs _ _ h1).1]
  rfl

/-! ## Lemmas on the root handler -/

theorem Error_status (w : ResponseWriter) (msg : String) (code : Nat) :
    (Error w msg code).status = some (w.status.getD code) := by
  cases hs : w.status <;>
    simp [Error, Write_status, ResponseWriter.WriteHeader, ResponseWriter.HeaderSet, hs]

theorem mem_blockedMethods (m : String) :
    m ∈ blockedMethods ↔
      (m = "PUT" ∨ m = "DELETE" ∨ m = "PROPPATCH" ∨ m = "MKCOL" ∨ m = "COPY" ∨ m = "MOVE") := by
  simp [blockedMethods]

theorem blockedMethods_ne_get (m : String) (h : m ∈ blockedMethods) : m ≠ "GET" := by
  intro hg
  subst hg
  revert h
  decide

theorem basicAuthCheck_none_iff (cfg : Flags) (w : ResponseWriter) (req : Request) :
    basicAuthCheck cfg w req = none ↔
      (cfg.flagUserName = "" ∨ cfg.flagPassword = "" ∨
        req.BasicAuth = some (cfg.flagUserName, cfg.flagPassword)) := by
  unfold basicAuthCheck
  by_cases hc : cfg.flagUserName ≠ "" ∧ cfg.flagPassword ≠ ""
  · rw [if_pos hc]
    cases hb : req.BasicAuth with
    | none => simp [hc.1, hc.2]
    | some up =>
      obtain ⟨u, p⟩ := up
      by_cases hm : u ≠ cfg.flagUserName ∨ p ≠ cfg.flagPassword
      · simp only [if_pos hm]
        simp only [hc.1, hc.2, false_or, Option.some.injEq, Prod.mk.injEq, reduceCtorEq,
          false_iff, not_and]
        intro hu
        rcases hm with hm | hm
        · exact absurd hu hm
        · exact hm
      · simp only [if_neg hm]
        simp only [not_or, not_not] at hm
        simp [hm.1, hm.2]
  · rw [if_neg hc]
    simp only [true_iff]
    by_cases hu : cfg.flagUserName = ""
    · exact Or.inl hu
    · by_cases hp : cfg.flagPassword = ""
      · exact Or.inr (Or.inl hp)
      · exact absurd ⟨hu, hp⟩ hc

theorem basicAuthCheck_some_status (cfg : Flags) (w w1 : ResponseWriter) (req : Request)
    (h : basicAuthCheck cfg w req = some w1) :
    w1.status = some (w.status.getD StatusUnauthorized) := by
  unfold basicAuthCheck at h
  by_cases hc : cfg.flagUserName ≠ "" ∧ cfg.flagPassword ≠ ""
  · rw [if_pos hc] at h
    cases hb : req.BasicAuth with
    | none =>
      simp only [hb, Option.some.injEq] at h
      rw [← h]
      cases hs : w.status <;> simp [ResponseWriter.WriteHeader, ResponseWriter.HeaderSet, hs]
    | some up =>
      obtain ⟨u, p⟩ := up
      simp only [hb] at h
      by_cases hm : u ≠ cfg.flagUserName ∨ p ≠ cfg.flagPassword
      · rw [if_pos hm, Option.some.injEq] at h
        rw [← h, Error_status]
      · rw [if_neg hm] at h
        exact absurd h (by simp)
  · rw [if_neg hc] at h
    exact absurd h (by simp)

theorem rootHandler_auth_fail {L : Type} (serve : ServeHTTP L) (cfg : Flags) (fs : Handler L)
    (w w1 : ResponseWriter) (req : Request) (h : basicAuthCheck cfg w req = some w1) :
    rootHandler serve cfg fs w req = ⟨fs, w1, [], []⟩ := by
  simp [rootHandler, h]

theorem rootHandler_not_get {L : Type} (serve : ServeHTTP L) (cfg : Flags) (fs : Handler L)
    (w : ResponseWriter) (req : Request) (h : basicAuthCheck cfg w req = none)
    (hm : req.Method ≠ "GET") :
    rootHandler serve cfg fs w req = readonlyThenServe serve cfg fs w req [] := by
  simp [rootHandler, h, hm]

theorem rootHandler_get_listing {L : Type} (serve : ServeHTTP L) (cfg : Flags) (fs : Handler L)
    (w : ResponseWriter) (req : Request) (h : basicAuthCheck cfg w req = none)
    (hm : req.Method = "GET") (hl : (handleDirList fs.FileSystem w req).ok = true) :
    rootHandler serve cfg fs w req =
      ⟨fs, (handleDirList fs.FileSystem w req).w, (handleDirList fs.FileSystem w req).calls, []⟩ := by
  simp [rootHandler, h, hm, hl]

theorem rootHandler_get_fallthrough {L : Type} (serve : ServeHTTP L) (cfg : Flags)
    (fs : Handler L) (w : ResponseWriter) (req : Request) (h : basicAuthCheck cfg w req = none)
    (hm : req.Method = "GET") (hl : (handleDirList fs.FileSystem w req).ok = false) :
    rootHandler serve cfg fs w req =
      readonlyThenServe serve cfg fs w req (handleDirList fs.FileSystem w req).calls := by
  simp [rootHandler, h, hm, hl, handleDirList_false_w fs.FileSystem w req hl]

theorem readonlyThenServe_blocked {L : Type} (serve : ServeHTTP L) (cfg : Flags)
    (fs : Handler L) (w : ResponseWriter) (req : Request) (calls : List FsCall)
    (hro : cfg.flagReadonly = true) (hm : req.Method ∈ blockedMethods) :
    readonlyThenServe serve cfg fs w req calls =
      ⟨fs, Error w "WebDAV: Read Only!!!" StatusForbidden, calls, []⟩ := by
  unfold readonlyThenServe
  rw [if_pos ⟨hro, (mem_blockedMethods _).1 hm⟩]

theorem readonlyThenServe_forward {L : Type} (serve : ServeHTTP L) (cfg : Flags)
    (fs : Handler L) (w : ResponseWriter) (req : Request) (calls : List FsCall)
    (h : ¬ (cfg.flagReadonly = true ∧ req.Method ∈ blockedMethods)) :
    readonlyThenServe serve cfg fs w req calls =
      ⟨(serve fs w req).1, (serve fs w req).2, calls, [(w, req)]⟩ := by
  unfold readonlyThenServe
  rw [if_neg (fun hc => h ⟨hc.1, (mem_blockedMethods _).2 hc.2⟩)]

theorem rootHandler_forward {L : Type} (serve : ServeHTTP L) (cfg : Flags) (fs : Handler L)
    (w : ResponseWriter) (req : Request) (hauth : basicAuthCheck cfg w req = none)
    (hlist : ¬ (req.Method = "GET" ∧ (handleDirList fs.FileSystem w req).ok = true))
    (hro : ¬ (cfg.flagReadonly = true ∧ req.Method ∈ blockedMethods)) :
    Forwarded serve fs w req (rootHandler serve cfg fs w req) := by
  by_cases hm : req.Method = "GET"
  · have hl : (handleDirList fs.FileSystem w req).ok = false := by
      cases hok : (handleDirList fs.FileSystem w req).ok
      · rfl
      · exact absurd ⟨hm, hok⟩ hlist
    rw [rootHandler_get_fallthrough serve cfg fs w req hauth hm hl,
      readonlyThenServe_forward serve cfg fs w req _ hro]
    exact ⟨rfl, rfl, rfl⟩
  · rw [rootHandler_not_get serve cfg fs w req hauth hm,
      readonlyThenServe_forward serve cfg fs w req _ hro]
    exact ⟨rfl, rfl, rfl⟩

/-! ## Read-only mode -/

/-- C1: with read-only mode on, a request that passes the authentication step and whose method
is PUT, DELETE, PROPPATCH, MKCOL, COPY or MOVE is answered with status 403 by the root handler,
which returns without calling `ServeHTTP` and without touching the file system, so the wrapped
file system and lock system are unchanged. -/
theorem readonly_rejects_before_dispatch {L : Type} (serve : ServeHTTP L) (cfg : Flags)
    (fs : Handler L) (w : ResponseWriter) (req : Request)
    (hro : cfg.flagReadonly = true) (hauth : basicAuthCheck cfg w req = none)
    (hm : req.Method ∈ blockedMethods) (hw : w.status = none) :
    (rootHandler serve cfg fs w req).w.status = some 403 ∧
      (rootHandler serve cfg fs w req).w = Error w "WebDAV: Read Only!!!" 403 ∧
      (rootHandler serve cfg fs w req).served = [] ∧
      (rootHandler serve cfg fs w req).fsCalls = [] ∧
      (rootHandler serve cfg fs w req).fs = fs := by
  rw [rootHandler_not_get serve cfg fs w req hauth (blockedMethods_ne_get _ hm),
    readonlyThenServe_blocked serve cfg fs w req [] hro hm]
  refine ⟨?_, rfl, rfl, rfl, rfl⟩
  show (Error w "WebDAV: Read Only!!!" StatusForbidden).status = some 403
  rw [Error_status, hw]
  rfl

theorem readonly_rejects_before_dispatch_witness :
    (rootHandler sampleServe flagsReadonly sampleHandler ResponseWriter.fresh
        ⟨"PUT", ⟨"/notes.txt"⟩, none⟩).w.status = some 403 ∧
      (rootHandler sampleServe flagsReadonly sampleHandler ResponseWriter.fresh
        ⟨"PUT", ⟨"/notes.txt"⟩, none⟩).served = [] :=
  have h := readonly_rejects_before_dispatch sampleServe flagsReadonly sampleHandler
    ResponseWriter.fresh ⟨"PUT", ⟨"/notes.txt"⟩, none⟩ rfl (by decide) (by decide) rfl
  ⟨h.1, h.2.2.1⟩

/-- C2: for a request whose method is GET or PROPFIND, the whole outcome of the root handler
(wrapped state, response, file-system calls, calls of `ServeHTTP`) is the same with the
read-only flag set as with it unset, all else being equal. -/
theorem readonly_flag_irrelevant_for_get_propfind {L : Type} (serve : ServeHTTP L)
    (user password : String) (fs : Handler L) (w : ResponseWriter) (req : Request)
    (hm : req.Method = "GET" ∨ req.Method = "PROPFIND") :
    rootHandler serve ⟨user, password, true⟩ fs w req =
      rootHandler serve ⟨user, password, false⟩ fs w req := by
  have hnb : req.Method ∉ blockedMethods := by
    rcases hm with hm | hm <;> rw [hm] <;> decide
  have hauth : basicAuthCheck ⟨user, password, true⟩ w req =
      basicAuthCheck ⟨user, password, false⟩ w req := rfl
  cases ha : basicAuthCheck ⟨user, password, false⟩ w req with
  | some w1 =>
    rw [rootHandler_auth_fail serve _ fs w w1 req ha,
      rootHandler_auth_fail serve _ fs w w1 req (hauth.trans ha)]
  | none =>
    by_cases hg : req.Method = "GET"
    · cases hl : (handleDirList fs.FileSystem w req).ok with
      | true =>
        rw [rootHandler_get_listing serve _ fs w req ha hg hl,
          rootHandler_get_listing serve _ fs w req (hauth.trans ha) hg hl]
      | false =>
        rw [rootHandler_get_fallthrough serve _ fs w req ha hg hl,
          rootHandler_get_fallthrough serve _ fs w req (hauth.trans ha) hg hl,
          readonlyThenServe_forward serve _ fs w req _ (fun h => hnb h.2),
          readonlyThenServe_forward serve _ fs w req _ (fun h => hnb h.2)]
    · rw [rootHandler_not_get serve _ fs w req ha hg,
        rootHandler_not_get serve _ fs w req (hauth.trans ha) hg,
        readonlyThenServe_forward serve _ fs w req _ (fun h => hnb h.2),
        readonlyThenServe_forward serve _ fs w req _ (fun h => hnb h.2)]

theorem readonly_flag_irrelevant_for_get_propfind_witness :
    rootHandler sampleServe ⟨"admin", "secret", true⟩ sampleHandler ResponseWriter.fresh
        ⟨"PROPFIND", ⟨"/notes.txt"⟩, some ("admin", "secret")⟩ =
      rootHandler sampleServe ⟨"admin", "secret", false⟩ sampleHandler ResponseWriter.fresh
        ⟨"PROPFIND", ⟨"/notes.txt"⟩, some ("admin", "secret")⟩ :=
  readonly_flag_irrelevant_for_get_propfind sampleServe "admin" "secret" sampleHandler
    ResponseWriter.fresh ⟨"PROPFIND", ⟨"/notes.txt"⟩, some ("admin", "secret")⟩ (Or.inr rfl)

/-- C3, as stated, fails: with read-only mode on, a LOCK request is not rejected; it reaches
`ServeHTTP`, which here records a lock and answers 200. -/
theorem readonly_lock_reaches_webdav :
    (rootHandler sampleServe flagsReadonly sampleHandler ResponseWriter.fresh
        ⟨"LOCK", ⟨"/notes.txt"⟩, none⟩).served ≠ [] ∧
      (rootHandler sampleServe flagsReadonly sampleHandler ResponseWriter.fresh
        ⟨"LOCK", ⟨"/notes.txt"⟩, none⟩).served =
          [(ResponseWriter.fresh, ⟨"LOCK", ⟨"/notes.txt"⟩, none⟩)] ∧
      (rootHandler sampleServe flagsReadonly sampleHandler ResponseWriter.fresh
        ⟨"LOCK", ⟨"/notes.txt"⟩, none⟩).fs.LockSystem = ["/notes.txt"] ∧
      (rootHandler sampleServe flagsReadonly sampleHandler ResponseWriter.fresh
        ⟨"LOCK", ⟨"/notes.txt"⟩, none⟩).w.status = some 200 := by
  decide

/-- C3, amended: with read-only mode on, every request whose method is PUT, DELETE, PROPPATCH,
MKCOL, COPY or MOVE is rejected by the root handler (status 401 when it fails the
authentication step, 403 otherwise) and never reaches `ServeHTTP`; LOCK and UNLOCK are not
blocked: a LOCK or UNLOCK request that passes the authentication step is forwarded to
`ServeHTTP`. -/
theorem readonly_blocks_six_not_lock {L : Type} (serve : ServeHTTP L) (cfg : Flags)
    (fs : Handler L) (w : ResponseWriter) (req : Request)
    (hro : cfg.flagReadonly = true) (hw : w.status = none) :
    (req.Method ∈ blockedMethods →
      (rootHandler serve cfg fs w req).served = [] ∧
        (rootHandler serve cfg fs w req).fs = fs ∧
        (basicAuthCheck cfg w req ≠ none →
          (rootHandler serve cfg fs w req).w.status = some 401) ∧
        (basicAuthCheck cfg w req = none →
          (rootHandler serve cfg fs w req).w.status = some 403 ∧
            (rootHandler serve cfg fs w req).w = Error w "WebDAV: Read Only!!!" 403)) ∧
      (req.Method = "LOCK" ∨ req.Method = "UNLOCK" → basicAuthCheck cfg w req = none →
        Forwarded serve fs w req (rootHandler serve cfg fs w req)) := by
  constructor
  · intro hm
    cases ha : basicAuthCheck cfg w req with
    | some w1 =>
      rw [rootHandler_auth_fail serve cfg fs w w1 req ha]
      refine ⟨rfl, rfl, fun _ => ?_, fun hn => absurd hn (by simp)⟩
      show w1.status = some 401
      rw [basicAuthCheck_some_status cfg w w1 req ha, hw]
      rfl
    | none =>
      rw [rootHandler_not_get serve cfg fs w req ha (blockedMethods_ne_get _ hm),
        readonlyThenServe_blocked serve cfg fs w req [] hro hm]
      refine ⟨rfl, rfl, fun hn => absurd rfl hn, fun _ => ⟨?_, rfl⟩⟩
      show (Error w "WebDAV: Read Only!!!" StatusForbidden).status = some 403
      rw [Error_status, hw]
      rfl
  · intro hm hauth
    have hnb : req.Method ∉ blockedMethods := by
      rcases hm with hm | hm <;> rw [hm] <;> decide
    have hng : req.Method ≠ "GET" := by
      rcases hm with hm | hm <;> rw [hm] <;> decide
    exact rootHandler_forward serve cfg fs w req hauth (fun h => hng h.1) (fun h => hnb h.2)

theorem readonly_blocks_six_not_lock_witness :
    ((rootHandler sampleServe flagsAuth sampleHandler ResponseWriter.fresh
        ⟨"DELETE", ⟨"/notes.txt"⟩, none⟩).served = [] ∧
      (rootHandler sampleServe flagsAuth sampleHandler ResponseWriter.fresh
        ⟨"DELETE", ⟨"/notes.txt"⟩, none⟩).w.status = some 401) ∧
      ((rootHandler sampleServe flagsAuth sampleHandler ResponseWriter.fresh
          ⟨"DELETE", ⟨"/notes.txt"⟩, some ("admin", "secret")⟩).served = [] ∧
        (rootHandler sampleServe flagsAuth sampleHandler ResponseWriter.fresh
          ⟨"DELETE", ⟨"/notes.txt"⟩, some ("admin", "secret")⟩).w.status = some 403) ∧
      Forwarded sampleServe sampleHandler ResponseWriter.fresh
        ⟨"UNLOCK", ⟨"/notes.txt"⟩, some ("admin", "secret")⟩
        (rootHandler sampleServe flagsAuth sampleHandler ResponseWriter.fresh
          ⟨"UNLOCK", ⟨"/notes.txt"⟩, some ("admin", "secret")⟩) :=
  have h1 := (readonly_blocks_six_not_lock sampleServe flagsAuth sampleHandler
    ResponseWriter.fresh ⟨"DELETE", ⟨"/notes.txt"⟩, none⟩ rfl rfl).1 (by decide)
  have h2 := (readonly_blocks_six_not_lock sampleServe flagsAuth sampleHandler
    ResponseWriter.fresh ⟨"DELETE", ⟨"/notes.txt"⟩, some ("admin", "secret")⟩ rfl rfl).1
    (by decide)
  ⟨⟨h1.1, h1.2.2.1 (by decide)⟩, ⟨h2.1, (h2.2.2.2 (by decide)).1⟩,
    (readonly_blocks_six_not_lock sampleServe flagsAuth sampleHandler ResponseWriter.fresh
      ⟨"UNLOCK", ⟨"/notes.txt"⟩, some ("admin", "secret")⟩ rfl rfl).2 (Or.inr rfl) (by decide)⟩

/-! ## Directory listing -/

/-- C4, as stated, fails for HEAD: a HEAD request for the readable root directory, which
`handleDirList` would list, is not answered by the listing; it is handed to `ServeHTTP` and
the response is the one `ServeHTTP` wrote. -/
theorem head_on_collection_not_listed :
    (handleDirList sampleFs ResponseWriter.fresh ⟨"HEAD", ⟨"/"⟩, none⟩).ok = true ∧
      (rootHandler sampleServe flagsOpen sampleHandler ResponseWriter.fresh
        ⟨"HEAD", ⟨"/"⟩, none⟩).served = [(ResponseWriter.fresh, ⟨"HEAD", ⟨"/"⟩, none⟩)] ∧
      (rootHandler sampleServe flagsOpen sampleHandler ResponseWriter.fresh
        ⟨"HEAD", ⟨"/"⟩, none⟩).w ≠
          (handleDirList sampleFs ResponseWriter.fresh ⟨"HEAD", ⟨"/"⟩, none⟩).w ∧
      (rootHandler sampleServe flagsOpen sampleHandler ResponseWriter.fresh
        ⟨"HEAD", ⟨"/"⟩, none⟩).w =
          (sampleServe sampleHandler ResponseWriter.fresh ⟨"HEAD", ⟨"/"⟩, none⟩).2 := by
  decide

/-- C4, amended: for every request that passes the authentication step, whose method is GET and
whose URL path names a collection that can be read, the root handler answers with the directory
listing written by `handleDirList` and does not call `ServeHTTP`; a HEAD request is never
answered by the listing: it is forwarded to `ServeHTTP`. -/
theorem get_collection_listed_head_forwarded {L : Type} (serve : ServeHTTP L) (cfg : Flags)
    (fs : Handler L) (w : ResponseWriter) (req : Request)
    (hauth : basicAuthCheck cfg w req = none) :
    (req.Method = "GET" → listable fs.FileSystem req.URL.Path →
      (handleDirList fs.FileSystem w req).ok = true ∧
        (rootHandler serve cfg fs w req).w = (handleDirList fs.FileSystem w req).w ∧
        (rootHandler serve cfg fs w req).served = [] ∧
        (rootHandler serve cfg fs w req).fs = fs) ∧
      (req.Method = "HEAD" → Forwarded serve fs w req (rootHandler serve cfg fs w req)) := by
  constructor
  · intro hm hl
    have hok := (handleDirList_ok_iff fs.FileSystem w req).2 hl
    rw [rootHandler_get_listing serve cfg fs w req hauth hm hok]
    exact ⟨hok, rfl, rfl, rfl⟩
  · intro hm
    have hnb : req.Method ∉ blockedMethods := by rw [hm]; decide
    have hng : req.Method ≠ "GET" := by rw [hm]; decide
    exact rootHandler_forward serve cfg fs w req hauth (fun h => hng h.1) (fun h => hnb h.2)

theorem get_collection_listed_head_forwarded_witness :
    ((handleDirList sampleFs ResponseWriter.fresh ⟨"GET", ⟨"/"⟩, none⟩).ok = true ∧
      (rootHandler sampleServe flagsReadonly sampleHandler ResponseWriter.fresh
        ⟨"GET", ⟨"/"⟩, none⟩).w =
          (handleDirList sampleFs ResponseWriter.fresh ⟨"GET", ⟨"/"⟩, none⟩).w ∧
      (rootHandler sampleServe flagsReadonly sampleHandler ResponseWriter.fresh
        ⟨"GET", ⟨"/"⟩, none⟩).served = [] ∧
      (rootHandler sampleServe flagsReadonly sampleHandler ResponseWriter.fresh
        ⟨"GET", ⟨"/"⟩, none⟩).fs = sampleHandler) ∧
      Forwarded sampleServe sampleHandler ResponseWriter.fresh ⟨"HEAD", ⟨"/"⟩, none⟩
        (rootHandler sampleServe flagsReadonly sampleHandler ResponseWriter.fresh
          ⟨"HEAD", ⟨"/"⟩, none⟩) :=
  ⟨(get_collection_listed_head_forwarded sampleServe flagsReadonly sampleHandler
      ResponseWriter.fresh ⟨"GET", ⟨"/"⟩, none⟩ (by decide)).1 rfl
      ⟨⟨some ⟨"/", true⟩, some [⟨"docs", true⟩, ⟨"a<b>&\"c.txt", false⟩]⟩, rfl,
        by decide, _, rfl⟩,
    (get_collection_listed_head_forwarded sampleServe flagsReadonly sampleHandler
      ResponseWriter.fresh ⟨"HEAD", ⟨"/"⟩, none⟩ (by decide)).2 rfl⟩

/-- C6: `handleDirList` returns true exactly when opening the path succeeds, `Stat` does not
report a non-directory and `Readdir` succeeds; whenever it returns false it leaves the response
writer as it found it (no header set, nothing written), and a GET request that passed the
authentication step is then handed to `ServeHTTP` untouched, read-only mode or not. -/
theorem dir_list_only_for_collections {L : Type} (serve : ServeHTTP L) (cfg : Flags)
    (fs : Handler L) (w : ResponseWriter) (req : Request) :
    ((handleDirList fs.FileSystem w req).ok = true ↔ listable fs.FileSystem req.URL.Path) ∧
      ((handleDirList fs.FileSystem w req).ok = false →
        (handleDirList fs.FileSystem w req).w = w ∧
          (req.Method = "GET" → basicAuthCheck cfg w req = none →
            Forwarded serve fs w req (rootHandler serve cfg fs w req))) := by
  refine ⟨handleDirList_ok_iff fs.FileSystem w req, fun hl => ?_⟩
  refine ⟨handleDirList_false_w fs.FileSystem w req hl, fun hm hauth => ?_⟩
  have hnb : req.Method ∉ blockedMethods := by rw [hm]; decide
  exact rootHandler_forward serve cfg fs w req hauth
    (fun h => by rw [hl] at h; exact absurd h.2 (by decide)) (fun h => hnb h.2)

theorem dir_list_only_for_collections_witness :
    (handleDirList sampleFs ResponseWriter.fresh ⟨"GET", ⟨"/notes.txt"⟩, none⟩).w
        = ResponseWriter.fresh ∧
      Forwarded sampleServe sampleHandler ResponseWriter.fresh ⟨"GET", ⟨"/notes.txt"⟩, none⟩
        (rootHandler sampleServe flagsReadonly sampleHandler ResponseWriter.fresh
          ⟨"GET", ⟨"/notes.txt"⟩, none⟩) ∧
      (handleDirList sampleFs ResponseWriter.fresh ⟨"GET", ⟨"/locked"⟩, none⟩).w
        = ResponseWriter.fresh ∧
      (handleDirList sampleFs ResponseWriter.fresh ⟨"GET", ⟨"/missing"⟩, none⟩).w
        = ResponseWriter.fresh :=
  have h := (dir_list_only_for_collections sampleServe flagsReadonly sampleHandler
    ResponseWriter.fresh ⟨"GET", ⟨"/notes.txt"⟩, none⟩).2 (by decide)
  ⟨h.1, h.2 rfl (by decide),
    ((dir_list_only_for_collections sampleServe flagsReadonly sampleHandler
      ResponseWriter.fresh ⟨"GET", ⟨"/locked"⟩, none⟩).2 (by decide)).1,
    ((dir_list_only_for_collections sampleServe flagsReadonly sampleHandler
      ResponseWriter.fresh ⟨"GET", ⟨"/missing"⟩, none⟩).2 (by decide)).1⟩

/-- C7: when `handleDirList` returns true on a response to which nothing was sent yet, for a
directory whose `Readdir` result is `dirs`, the response has status 200, its Content-Type header
is `text/html; charset=utf-8`, and the body written is exactly the opening `<pre>` line, then
for each entry in `Readdir` order one anchor line whose href value and text are both the entry
name (with a slash appended exactly for directories, no escaping), then the closing line. -/
theorem dir_list_page_exact (fs : FileSystem) (w : ResponseWriter) (req : Request) (f : File)
    (dirs : List FileInfo) (ho : fs.OpenFile req.URL.Path = some f)
    (hr : f.Readdir = some dirs) (h : (handleDirList fs w req).ok = true)
    (hw : w.status = none) :
    (handleDirList fs w req).w.status = some 200 ∧
      Header.Get (handleDirList fs w req).w.sentHeader "Content-Type"
        = some "text/html; charset=utf-8" ∧
      Header.Get (handleDirList fs w req).w.header "Content-Type"
        = some "text/html; charset=utf-8" ∧
      (handleDirList fs w req).w.body = w.body ++ listingBody dirs := by
  have hs := handleDirList_status fs w req h
  rw [hw] at hs
  refine ⟨hs, ?_⟩
  rw [handleDirList_true_w fs w req f dirs ho hr h]
  have h1 : (Fprintf (w.HeaderSet "Content-Type" "text/html; charset=utf-8")
      "<pre>\n" []).status = some 200 := by
    simp [Fprintf, Write_status, ResponseWriter.HeaderSet, hw]
  have h2 : (Fprintf (w.HeaderSet "Content-Type" "text/html; charset=utf-8")
      "<pre>\n" []).sentHeader = Header.Set w.header "Content-Type" "text/html; charset=utf-8" := by
    rw [Fprintf, Write_sentHeader_none _ _ (by simp [ResponseWriter.HeaderSet, hw])]
    rfl
  have h3 := foldl_writeEntry_status dirs _ 200 h1
  refine ⟨?_, ?_, ?_⟩
  · rw [Fprintf, Write_sentHeader_some _ _ 200 h3.1, h3.2, h2, Header.Get_Set_self]
  · rw [Fprintf, Write_header, foldl_writeEntry_header, Fprintf, Write_header]
    exact Header.Get_Set_self _ _ _
  · rw [Fprintf, Write_body, foldl_writeEntry_body, Fprintf, Write_body, Sprintf_open,
      Sprintf_close]
    simp only [listingBody, ResponseWriter.HeaderSet, String.append_assoc]

theorem dir_list_page_exact_witness :
    (handleDirList sampleFs ResponseWriter.fresh ⟨"GET", ⟨"/"⟩, none⟩).w.body
        = ResponseWriter.fresh.body ++
          listingBody [⟨"docs", true⟩, ⟨"a<b>&\"c.txt", false⟩] ∧
      ResponseWriter.fresh.body ++ listingBody [⟨"docs", true⟩, ⟨"a<b>&\"c.txt", false⟩]
        = "<pre>\n<a href=\"docs/\">docs/</a>\n<a href=\"a<b>&\"c.txt\">a<b>&\"c.txt</a>\n</pre>\n" :=
  ⟨(dir_list_page_exact sampleFs ResponseWriter.fresh ⟨"GET", ⟨"/"⟩, none⟩
      ⟨some ⟨"/", true⟩, some [⟨"docs", true⟩, ⟨"a<b>&\"c.txt", false⟩]⟩ _ rfl rfl
      (by decide) rfl).2.2.2,
    by decide⟩

/-! ## Authentication -/

/-- C5: when both the user name and the password are configured, a request passes the
authentication step if and only if `BasicAuth` yields credentials equal to the configured user
name and password; every other request is answered with status 401 and the handler returns
with no call on the file system, whatever the read-only flag, and no call of `ServeHTTP`. -/
theorem basic_auth_gate {L : Type} (serve : ServeHTTP L) (cfg : Flags) (fs : Handler L)
    (w : ResponseWriter) (req : Request)
    (hu : cfg.flagUserName ≠ "") (hp : cfg.flagPassword ≠ "") (hw : w.status = none) :
    (basicAuthCheck cfg w req = none ↔
        ∃ username password, req.BasicAuth = some (username, password) ∧
          username = cfg.flagUserName ∧ password = cfg.flagPassword) ∧
      (basicAuthCheck cfg w req ≠ none →
        (rootHandler serve cfg fs w req).w.status = some 401 ∧
          (rootHandler serve cfg fs w req).fsCalls = [] ∧
          (rootHandler serve cfg fs w req).served = [] ∧
          (rootHandler serve cfg fs w req).fs = fs ∧
          ∀ ro : Bool,
            (rootHandler serve ⟨cfg.flagUserName, cfg.flagPassword, ro⟩ fs w req).w =
              (rootHandler serve cfg fs w req).w ∧
            (rootHandler serve ⟨cfg.flagUserName, cfg.flagPassword, ro⟩ fs w req).served = []) := by
  constructor
  · rw [basicAuthCheck_none_iff]
    constructor
    · intro h
      rcases h with h | h | h
      · exact absurd h hu
      · exact absurd h hp
      · exact ⟨_, _, h, rfl, rfl⟩
    · rintro ⟨u, p, hb, rfl, rfl⟩
      exact Or.inr (Or.inr hb)
  · intro hne
    cases ha : basicAuthCheck cfg w req with
    | none => exact absurd ha hne
    | some w1 =>
      have hst : w1.status = some 401 := by
        rw [basicAuthCheck_some_status cfg w w1 req ha, hw]
        rfl
      rw [rootHandler_auth_fail serve cfg fs w w1 req ha]
      refine ⟨hst, rfl, rfl, rfl, fun ro => ?_⟩
      have ha2 : basicAuthCheck ⟨cfg.flagUserName, cfg.flagPassword, ro⟩ w req = some w1 := ha
      rw [rootHandler_auth_fail serve _ fs w w1 req ha2]
      exact ⟨rfl, rfl⟩

theorem basic_auth_gate_witness :
    (rootHandler sampleServe flagsAuth sampleHandler ResponseWriter.fresh
        ⟨"GET", ⟨"/"⟩, some ("admin", "guess")⟩).w.status = some 401 ∧
      (rootHandler sampleServe flagsAuth sampleHandler ResponseWriter.fresh
        ⟨"GET", ⟨"/"⟩, some ("admin", "guess")⟩).fsCalls = [] ∧
      (rootHandler sampleServe flagsAuth sampleHandler ResponseWriter.fresh
        ⟨"GET", ⟨"/"⟩, some ("admin", "guess")⟩).served = [] :=
  have h := (basic_auth_gate sampleServe flagsAuth sampleHandler ResponseWriter.fresh
    ⟨"GET", ⟨"/"⟩, some ("admin", "guess")⟩ (by decide) (by decide) rfl).2 (by decide)
  ⟨h.1, h.2.1, h.2.2.1⟩

/-- C9: when the configured user name is empty or the configured password is empty, every
request skips the credential check, whatever credentials it carries, and the root handler
itself never answers it with status 401. -/
theorem auth_skipped_unless_both_configured {L : Type} (serve : ServeHTTP L) (cfg : Flags)
    (fs : Handler L) (w : ResponseWriter) (req : Request)
    (h : cfg.flagUserName = "" ∨ cfg.flagPassword = "") (hw : w.status = none) :
    basicAuthCheck cfg w req = none ∧
      ((rootHandler serve cfg fs w req).served = [] →
        (rootHandler serve cfg fs w req).w.status ≠ some 401) := by
  have hauth : basicAuthCheck cfg w req = none := by
    rw [basicAuthCheck_none_iff]
    rcases h with h | h
    · exact Or.inl h
    · exact Or.inr (Or.inl h)
  refine ⟨hauth, ?_⟩
  by_cases hb : cfg.flagReadonly = true ∧ req.Method ∈ blockedMethods
  · rw [rootHandler_not_get serve cfg fs w req hauth (blockedMethods_ne_get _ hb.2),
      readonlyThenServe_blocked serve cfg fs w req [] hb.1 hb.2]
    intro _
    show (Error w "WebDAV: Read Only!!!" StatusForbidden).status ≠ some 401
    rw [Error_status, hw]
    decide
  · by_cases hl : req.Method = "GET" ∧ (handleDirList fs.FileSystem w req).ok = true
    · rw [rootHandler_get_listing serve cfg fs w req hauth hl.1 hl.2]
      intro _
      show (handleDirList fs.FileSystem w req).w.status ≠ some 401
      rw [handleDirList_status fs.FileSystem w req hl.2, hw]
      decide
    · have hf := rootHandler_forward serve cfg fs w req hauth hl hb
      intro hs
      rw [hf.1] at hs
      exact absurd hs (by simp)

theorem auth_skipped_unless_both_configured_witness :
    basicAuthCheck flagsUserOnly ResponseWriter.fresh
        ⟨"GET", ⟨"/"⟩, some ("mallory", "guess")⟩ = none ∧
      (rootHandler sampleServe flagsUserOnly sampleHandler ResponseWriter.fresh
        ⟨"GET", ⟨"/"⟩, some ("mallory", "guess")⟩).w.status ≠ some 401 :=
  have h := auth_skipped_unless_both_configured sampleServe flagsUserOnly sampleHandler
    ResponseWriter.fresh ⟨"GET", ⟨"/"⟩, some ("mallory", "guess")⟩ (Or.inr rfl) rfl
  ⟨h.1, h.2 (by decide)⟩

/-- C10: with both credentials configured, a request for which `BasicAuth` reports no
credentials is answered with status 401, the header WWW-Authenticate set to
`Basic realm="Restricted"` and an empty body; a request whose credentials parse but differ from
the configured user name or password is answered with status 401, the body
`WebDAV: need authorized!` followed by a newline, and no WWW-Authenticate header. -/
theorem auth_failure_responses {L : Type} (serve : ServeHTTP L) (cfg : Flags) (fs : Handler L)
    (req : Request) (hu : cfg.flagUserName ≠ "") (hp : cfg.flagPassword ≠ "") :
    (req.BasicAuth = none →
      (rootHandler serve cfg fs ResponseWriter.fresh req).w.status = some 401 ∧
        Header.Get (rootHandler serve cfg fs ResponseWriter.fresh req).w.sentHeader
          "WWW-Authenticate" = some "Basic realm=\"Restricted\"" ∧
        (rootHandler serve cfg fs ResponseWriter.fresh req).w.body = "") ∧
      (∀ username password, req.BasicAuth = some (username, password) →
        username ≠ cfg.flagUserName ∨ password ≠ cfg.flagPassword →
        (rootHandler serve cfg fs ResponseWriter.fresh req).w.status = some 401 ∧
          (rootHandler serve cfg fs ResponseWriter.fresh req).w.body
            = "WebDAV: need authorized!\n" ∧
          Header.Get (rootHandler serve cfg fs ResponseWriter.fresh req).w.sentHeader
            "WWW-Authenticate" = none ∧
          Header.Get (rootHandler serve cfg fs ResponseWriter.fresh req).w.header
            "WWW-Authenticate" = none) := by
  constructor
  · intro hb
    have ha : basicAuthCheck cfg ResponseWriter.fresh req =
        some ((ResponseWriter.fresh.HeaderSet "WWW-Authenticate"
          "Basic realm=\"Restricted\"").WriteHeader StatusUnauthorized) := by
      simp [basicAuthCheck, hu, hp, hb]
    rw [rootHandler_auth_fail serve cfg fs _ _ req ha]
    dsimp only
    decide
  · intro u p hb hm
    have ha : basicAuthCheck cfg ResponseWriter.fresh req =
        some (Error ResponseWriter.fresh "WebDAV: need authorized!" StatusUnauthorized) := by
      unfold basicAuthCheck
      rw [if_pos ⟨hu, hp⟩]
      simp only [hb]
      rw [if_pos hm]
    rw [rootHandler_auth_fail serve cfg fs _ _ req ha]
    dsimp only
    decide

theorem auth_failure_responses_witness :
    ((rootHandler sampleServe flagsAuth sampleHandler ResponseWriter.fresh
        ⟨"PUT", ⟨"/notes.txt"⟩, none⟩).w.status = some 401 ∧
      Header.Get (rootHandler sampleServe flagsAuth sampleHandler ResponseWriter.fresh
        ⟨"PUT", ⟨"/notes.txt"⟩, none⟩).w.sentHeader "WWW-Authenticate"
          = some "Basic realm=\"Restricted\"" ∧
      (rootHandler sampleServe flagsAuth sampleHandler ResponseWriter.fresh
        ⟨"PUT", ⟨"/notes.txt"⟩, none⟩).w.body = "") ∧
      ((rootHandler sampleServe flagsAuth sampleHandler ResponseWriter.fresh
          ⟨"PUT", ⟨"/notes.txt"⟩, some ("admin", "guess")⟩).w.status = some 401 ∧
        (rootHandler sampleServe flagsAuth sampleHandler ResponseWriter.fresh
          ⟨"PUT", ⟨"/notes.txt"⟩, some ("admin", "guess")⟩).w.body
            = "WebDAV: need authorized!\n" ∧
        Header.Get (rootHandler sampleServe flagsAuth sampleHandler ResponseWriter.fresh
          ⟨"PUT", ⟨"/notes.txt"⟩, some ("admin", "guess")⟩).w.sentHeader
            "WWW-Authenticate" = none ∧
        Header.Get (rootHandler sampleServe flagsAuth sampleHandler ResponseWriter.fresh
          ⟨"PUT", ⟨"/notes.txt"⟩, some ("admin", "guess")⟩).w.header
            "WWW-Authenticate" = none) :=
  ⟨(auth_failure_responses sampleServe flagsAuth sampleHandler
      ⟨"PUT", ⟨"/notes.txt"⟩, none⟩ (by decide) (by decide)).1 rfl,
    (auth_failure_responses sampleServe flagsAuth sampleHandler
      ⟨"PUT", ⟨"/notes.txt"⟩, some ("admin", "guess")⟩ (by decide) (by decide)).2
      "admin" "guess" rfl (by decide)⟩

/-! ## Transparency of the wrapper -/

/-- C8: every request that passes the authentication step, is not answered by the directory
listing, and is not one of the six blocked methods under read-only mode, is handed to
`ServeHTTP` exactly once with the writer and request unchanged, and the outcome is the one
`ServeHTTP` produced; in particular LOCK, UNLOCK, PROPFIND, OPTIONS, HEAD and POST are
forwarded whatever the read-only flag. -/
theorem wrapper_transparent {L : Type} (serve : ServeHTTP L) (cfg : Flags) (fs : Handler L)
    (w : ResponseWriter) (req : Request) (hauth : basicAuthCheck cfg w req = none) :
    (¬ (req.Method = "GET" ∧ (handleDirList fs.FileSystem w req).ok = true) →
      ¬ (cfg.flagReadonly = true ∧ req.Method ∈ blockedMethods) →
      Forwarded serve fs w req (rootHandler serve cfg fs w req)) ∧
      (req.Method ∈ ["LOCK", "UNLOCK", "PROPFIND", "OPTIONS", "HEAD", "POST"] →
        Forwarded serve fs w req (rootHandler serve cfg fs w req)) := by
  refine ⟨rootHandler_forward serve cfg fs w req hauth, fun hm => ?_⟩
  have hng : req.Method ≠ "GET" := by
    intro hg
    rw [hg] at hm
    revert hm
    decide
  have hnb : req.Method ∉ blockedMethods := by
    simp only [List.mem_cons, List.mem_singleton, List.not_mem_nil, or_false] at hm
    rcases hm with hm | hm | hm | hm | hm | hm <;> rw [hm] <;> decide
  exact rootHandler_forward serve cfg fs w req hauth (fun h => hng h.1) (fun h => hnb h.2)

theorem wrapper_transparent_witness :
    Forwarded sampleServe sampleHandler ResponseWriter.fresh
        ⟨"GET", ⟨"/notes.txt"⟩, some ("admin", "secret")⟩
        (rootHandler sampleServe flagsAuth sampleHandler ResponseWriter.fresh
          ⟨"GET", ⟨"/notes.txt"⟩, some ("admin", "secret")⟩) ∧
      Forwarded sampleServe sampleHandler ResponseWriter.fresh
        ⟨"LOCK", ⟨"/notes.txt"⟩, some ("admin", "secret")⟩
        (rootHandler sampleServe flagsAuth sampleHandler ResponseWriter.fresh
          ⟨"LOCK", ⟨"/notes.txt"⟩, some ("admin", "secret")⟩) :=
  ⟨(wrapper_transparent sampleServe flagsAuth sampleHandler ResponseWriter.fresh
      ⟨"GET", ⟨"/notes.txt"⟩, some ("admin", "secret")⟩ (by decide)).1
      (by decide) (by decide),
    (wrapper_transparent sampleServe flagsAuth sampleHandler ResponseWriter.fresh
      ⟨"LOCK", ⟨"/notes.txt"⟩, some ("admin", "secret")⟩ (by decide)).2 (by decide)⟩

end WebdavServer
